import Mathlib

/-!
# Verification of the strangeness-tracking hypertriton matcher

Shallow embedding of `Detectors/StrangenessTracking/tracking/src/HyperTracker.cxx`
and `Detectors/StrangenessTracking/tracking/include/StrangenessTracking/StrangenessTracker.h`.

Track propagation, rotation, material correction, the predicted chi-square, the
Kalman update and the DCA vertex fitters are external collaborators of this
repository (consumed opaquely at their call boundary); they are modelled as
arbitrary functions bundled in an `Env` structure.  Floating-point chi-square
values are modelled by `FVal`, which has explicit non-finite elements with
IEEE-style comparison semantics (every comparison against `nan` is false).
-/

namespace StrangenessTracking

/-- A floating-point value as used for chi-square gating: either a finite
rational or one of the non-finite IEEE values. -/
inductive FVal where
  | nan
  | pinf
  | ninf
  | fin (q : ℚ)
deriving DecidableEq

/-- IEEE-style strict `<` on `FVal`: any comparison involving `nan` is false,
`pinf` is below nothing, `ninf` is below everything except itself and `nan`. -/
def FVal.lt : FVal → FVal → Bool
  | .nan, _ => false
  | _, .nan => false
  | .pinf, _ => false
  | .ninf, .ninf => false
  | .ninf, _ => true
  | .fin _, .pinf => true
  | .fin _, .ninf => false
  | .fin a, .fin b => decide (a < b)

/-- An `FVal` that is finite and strictly positive. -/
def FVal.posFinite : FVal → Bool
  | .fin q => decide (0 < q)
  | _ => false

/-- A 3-vector of rationals (momentum or position components). -/
structure Vec3 where
  x : ℚ
  y : ℚ
  z : ℚ
deriving DecidableEq

/-- Componentwise sum, as in `pV0 = {pP[0]+pN[0], pP[1]+pN[1], pP[2]+pN[2]}`. -/
def vadd (a b : Vec3) : Vec3 := ⟨a.x + b.x, a.y + b.y, a.z + b.z⟩

/-- Scalar product `a.Dot b` of two `TVector3`-style vectors. -/
def dot (a b : Vec3) : ℚ := a.x * b.x + a.y * b.y + a.z * b.z

/-- Particle-identity hypothesis (`o2::track::PID`); only `HyperTriton` is
used by name in this code. -/
inductive PID where
  | hyperTriton
  | other (n : ℕ)
deriving DecidableEq

/-- An ITS cluster (`o2::BaseCluster<float>`): a sensor identifier used to
resolve geometry, and the local coordinates read by the matcher
(`getX`, `getY`). -/
structure Cluster where
  sensorID : ℕ
  x : ℚ
  y : ℚ
deriving DecidableEq

/-- Modelled from the spec: the external `o2::track::TrackParCov` track state
(ReconstructionDataFormats, not part of this repository).  Only the observables
this repository reads are explicit — vertex position, global 3-momentum
(`getPxPyPzGlo`), covariance, signed charge and PID hypothesis; everything else
(local parameters, angles) is collapsed into an opaque `aux` payload that the
collaborator operations are free to transform. -/
structure Track where
  pos : Vec3
  mom : Vec3
  cov : List ℚ
  charge : ℤ
  pid : PID
  aux : ℕ
deriving DecidableEq

/-- Modelled from the spec: the external `TrackParCov::setAbsCharge`, which
assigns the magnitude of the charge, keeping its sign. -/
def setAbsCharge (t : Track) (n : ℕ) : Track :=
  { t with charge := if t.charge < 0 then -(n : ℤ) else (n : ℤ) }

/-- Modelled from the spec: the external `TrackParCov::setPID`, which assigns
the PID hypothesis. -/
def setPID (t : Track) (p : PID) : Track := { t with pid := p }

/-- The `o2::dataformats::V0` decay candidate: its own `TrackParCov` base
subobject plus the two prong track states and their identifiers. -/
structure V0 where
  base : Track
  prong0 : Track
  prong1 : Track
  id0 : ℕ
  id1 : ℕ
deriving DecidableEq

/-- Modelled from the spec: the external `o2::dataformats::V0` constructor
(ReconstructionDataFormats, not part of this repository).  It rebuilds a fresh
decay candidate from a vertex position, a 3-momentum, a covariance, the two
post-fit prongs with their ids, and a PID hypothesis; per the spec the rebuilt
candidate carries the assigned PID hypothesis and the total charge of the
daughter pair. -/
def mkV0 (pos mom : Vec3) (cov : List ℚ) (p0 p1 : Track) (i0 i1 : ℕ)
    (pid : PID) : V0 :=
  { base := { pos := pos, mom := mom, cov := cov,
              charge := p0.charge + p1.charge, pid := pid, aux := 0 },
    prong0 := p0, prong1 := p1, id0 := i0, id1 := i1 }

/-- Modelled from the spec: the external `V0::calcR2`, the squared transverse
radius of the decay-vertex position. -/
def calcR2 (v : V0) : ℚ := v.base.pos.x * v.base.pos.x + v.base.pos.y * v.base.pos.y

/-- Outcome of one call to a DCA fitter: the `process` call either throws a
`std::runtime_error`, or returns a candidate count together with the data later
read back from the fitter (whether `propagateTracksToVertex` succeeds, the two
propagated tracks obtained via `getTrack`, the PCA candidate position, and the
flattened PCA covariance). -/
inductive FitOutcome where
  | throws
  | ok (nCand : ℕ) (propOk : Bool) (t0 t1 : Track) (pca : Vec3) (cov : List ℚ)
deriving DecidableEq

/-- The external collaborators consumed opaquely at their call boundary
(propagation/material physics, geometry lookup, chi-square and Kalman update,
vertex solvers) together with the configuration surface (`mBz`, `mMaxChi2`). -/
structure Env where
  rotate : Track → ℚ → Option Track
  propagateTo : Track → ℚ → ℚ → Option Track
  correctForMaterial : Track → ℚ → ℚ → Option Track
  getPredictedChi2 : Track → Cluster → FVal
  update : Track → Cluster → Track
  resetCovariance : Track → Track
  sensorAlpha : ℕ → ℚ
  sensorLayer : ℕ → ℕ
  fitV0 : Track → Track → FitOutcome
  fit3Body : Track → Track → Track → FitOutcome
  bz : ℚ
  maxChi2 : FVal

/-- Radiation length of Si [cm], `constexpr float radl = 9.36f`. -/
def radl : ℚ := 936 / 100

/-- Density of Si [g/cm^3], `constexpr float rho = 2.33f`. -/
def rho : ℚ := 233 / 100

/-- The layer-tier-dependent effective thickness of `HyperTracker::updateTrack`:
`int layer{geomITS->getLayer(clus.getSensorID())}; float thick = layer < 3 ? 0.005 : 0.01`. -/
def thickOf (env : Env) (clus : Cluster) : ℚ :=
  if env.sensorLayer clus.sensorID < 3 then 5 / 1000 else 1 / 100

/-- The chi-square gate of `updateTrack`, exactly as written in the source:
`track.getPredictedChi2(clus) < mMaxChi2 && track.getPredictedChi2(clus) > 0`. -/
def chi2Gate (env : Env) (clus : Cluster) (t3 : Track) : Bool :=
  (env.getPredictedChi2 t3 clus).lt env.maxChi2
    && (FVal.fin 0).lt (env.getPredictedChi2 t3 clus)

/-- `HyperTracker::updateTrack` (HyperTracker.cxx lines 114-132).  The C++
mutates the caller's `TrackParCov&` in place; the embedding returns the final
state of that reference next to the boolean result.  A collaborator call that
fails is modelled as leaving the state at its input. -/
def updateTrack (env : Env) (clus : Cluster) (track : Track) : Bool × Track :=
  match env.rotate track (env.sensorAlpha clus.sensorID) with
  | none => (false, track)
  | some t1 =>
    match env.propagateTo t1 clus.x env.bz with
    | none => (false, t1)
    | some t2 =>
      match env.correctForMaterial t2 (thickOf env clus)
          (thickOf env clus * rho * radl) with
      | none => (false, t2)
      | some t3 =>
        if chi2Gate env clus t3 then (true, env.update t3 clus) else (false, t3)

/-- The three physics steps of `updateTrack` that precede the chi-square gate,
composed: frame rotation, radial propagation, material correction. -/
def matChain (env : Env) (clus : Cluster) (track : Track) : Option Track :=
  match env.rotate track (env.sensorAlpha clus.sensorID) with
  | none => none
  | some t1 =>
    match env.propagateTo t1 clus.x env.bz with
    | none => none
    | some t2 =>
      env.correctForMaterial t2 (thickOf env clus) (thickOf env clus * rho * radl)

/-- `HyperTracker::calcV0alpha` (HyperTracker.cxx lines 193-208): the momentum
asymmetry `(lQlPos - lQlNeg) / (lQlPos + lQlNeg)` of the prongs along the V0
direction.  The common factor `momTot.Mag()` of `lQlPos` and `lQlNeg` cancels
in the ratio, so the embedding works with the plain scalar products. -/
def calcV0alpha (v : V0) : ℚ :=
  let lQlPos := dot v.prong0.mom v.base.mom
  let lQlNeg := dot v.prong1.mom v.base.mom
  (lQlPos - lQlNeg) / (lQlPos + lQlNeg)

/-- The He3 prong chosen by the fallback branch:
`calcV0alpha(hypV0) > 0 ? hypV0.getProng(0) : hypV0.getProng(1)`. -/
def he3Prong (v : V0) : Track :=
  if 0 < calcV0alpha v then v.prong0 else v.prong1

/-- Writing back the He3 prong chosen by `he3Prong` (the C++ mutates it in
place through the reference returned by `getProng`). -/
def setHe3Prong (v : V0) (t : Track) : V0 :=
  if 0 < calcV0alpha v then { v with prong0 := t } else { v with prong1 := t }

/-- `HyperTracker::recreateV0` (HyperTracker.cxx lines 134-162).  A thrown
`std::runtime_error` from the fitter and a zero candidate count both yield
failure (`none`); on success the member `hypV0` is overwritten with a fresh V0
built from the PCA position, the summed momenta of the two propagated prongs,
the PCA covariance and the HyperTriton PID, then `setAbsCharge(1)` and
`setPID(HyperTriton)` are applied to it. -/
def recreateV0 (env : Env) (posTrack negTrack : Track) (posID negID : ℕ) :
    Option V0 :=
  match env.fitV0 posTrack negTrack with
  | .throws => none
  | .ok nCand _ propPos propNeg pca cov =>
    if nCand = 0 then none
    else
      let pV0 := vadd propPos.mom propNeg.mom
      let nv := mkV0 pca pV0 cov propPos propNeg posID negID PID.hyperTriton
      some { nv with base := setPID (setAbsCharge nv.base 1) PID.hyperTriton }

/-- `HyperTracker::Refit3Body` (HyperTracker.cxx lines 164-191).  Same failure
handling as `recreateV0`; on success `hypV0` is rebuilt from the 3-body fit
(tracks 1 and 2 of the fitter), keeping the current prong ids, and
`setAbsCharge(1)` is applied. -/
def Refit3Body (env : Env) (v : V0) : Option V0 :=
  match env.fit3Body v.base v.prong0 v.prong1 with
  | .throws => none
  | .ok nCand _ propPos propNeg pca cov =>
    if nCand = 0 then none
    else
      let pV0 := vadd propPos.mom propNeg.mom
      let nv := mkV0 pca pV0 cov propPos propNeg v.id0 v.id1 PID.hyperTriton
      some { nv with base := setAbsCharge nv.base 1 }

/-- The loop state of `HyperTracker::process` (HyperTracker.cxx lines 63-94):
the working candidate `hypV0`, the accumulated vector `ITSclusV0` of clusters
attached to the combined candidate, the attachment counter `isProcessed` and
the fallback flag `tryDaughter`. -/
structure LoopState where
  hypV0 : V0
  clusV0 : List Cluster
  isProcessed : ℕ
  tryDaughter : Bool
deriving DecidableEq

/-- Which branch handled a hit that completed its loop iteration: attached to
the combined candidate, attached to the He3 daughter, or neither. -/
inductive HitEv where
  | mother (c : Cluster)
  | daughter (c : Cluster)
  | skip (c : Cluster)
deriving DecidableEq

/-- The cluster a completed iteration handled. -/
def HitEv.clus : HitEv → Cluster
  | .mother c => c
  | .daughter c => c
  | .skip c => c

/-- The cluster of a `mother` event, if any. -/
def HitEv.motherClus : HitEv → Option Cluster
  | .mother c => some c
  | _ => none

/-- Whether the event stands for a successful attachment (mother or
daughter), i.e. an iteration that incremented `isProcessed`. -/
def HitEv.attached : HitEv → Bool
  | .skip _ => false
  | _ => true

/-- The two `return false` exits inside the per-hit loop: a failed
single-daughter attachment attempt, and the `isProcessed == 0` check at the
end of an iteration. -/
inductive LoopFail where
  | daughterFail
  | zeroAttach
deriving DecidableEq

/-- The V0-compatibility branch of one loop iteration
(`if (diffR2 > -4) { if (updateTrack(clus, hypV0)) {...} }`): returns whether
the cluster was attached to the combined candidate, together with the updated
state (the V0 base is mutated by `updateTrack` even when the attachment is
rejected). -/
def v0Branch (env : Env) (mInitR2 : ℚ) (s : LoopState) (c : Cluster) :
    Bool × LoopState :=
  let diffR2 := mInitR2 - c.x * c.x - c.y * c.y
  if diffR2 > -4 then
    let r := updateTrack env c s.hypV0.base
    if r.1 then
      (true, { hypV0 := { s.hypV0 with base := r.2 },
               clusV0 := s.clusV0 ++ [c],
               isProcessed := s.isProcessed + 1,
               tryDaughter := false })
    else (false, { s with hypV0 := { s.hypV0 with base := r.2 } })
  else (false, s)

/-- One iteration of the per-hit loop of `HyperTracker::process`
(HyperTracker.cxx lines 69-94): the V0-compatibility branch, then the He3
fallback branch guarded by `diffR2 < 4 && tryDaughter == true` (whose failure
is the `return false` at line 86, and whose success re-runs `recreateV0`,
ignoring its result, and `continue`s), then the `isProcessed == 0` check. -/
def procStep (env : Env) (mInitR2 : ℚ) (s : LoopState) (c : Cluster) :
    (HitEv × LoopState) ⊕ LoopFail :=
  let diffR2 := mInitR2 - c.x * c.x - c.y * c.y
  let r := v0Branch env mInitR2 s c
  let s1 := r.2
  if diffR2 < 4 ∧ s1.tryDaughter = true then
    let u := updateTrack env c (he3Prong s1.hypV0)
    let v0m := setHe3Prong s1.hypV0 u.2
    if u.1 then
      let v0r := (recreateV0 env v0m.prong0 v0m.prong1 v0m.id0 v0m.id1).getD v0m
      Sum.inl (.daughter c,
        { s1 with hypV0 := v0r, isProcessed := s1.isProcessed + 1 })
    else Sum.inr .daughterFail
  else if r.1 then Sum.inl (.mother c, s1)
  else if s1.isProcessed = 0 then Sum.inr .zeroAttach
  else Sum.inl (.skip c, s1)

/-- The per-hit loop of `HyperTracker::process`, iterated over the cluster
list, recording one event per completed iteration. -/
def procLoop (env : Env) (mInitR2 : ℚ) :
    List Cluster → LoopState → List HitEv × (LoopState ⊕ LoopFail)
  | [], s => ([], Sum.inl s)
  | c :: rest, s =>
    match procStep env mInitR2 s c with
    | Sum.inl (ev, s') =>
      let r := procLoop env mInitR2 rest s'
      (ev :: r.1, r.2)
    | Sum.inr f => ([], Sum.inr f)

/-- The second attachment pass of `HyperTracker::process` (lines 100-103):
re-run `updateTrack` over the given cluster list, threading the mutated V0
base, failing as soon as one attachment is rejected. -/
def inwardPass (env : Env) : List Cluster → Track → Option Track
  | [], t => some t
  | c :: rest, t =>
    let r := updateTrack env c t
    if r.1 then inwardPass env rest r.2 else none

/-- Why `HyperTracker::process` returned false. -/
inductive Reason where
  | daughterFail
  | zeroAttach
  | inwardFail
  | refitFail
  | belowMin
deriving DecidableEq

/-- The second attachment pass as guarded in the source
(lines 96-104): only entered when `ITSclusV0.size() > 0`, after
`hypV0.resetCovariance()` and `std::reverse(ITSclusV0)`. -/
def inwardPhase (env : Env) (s : LoopState) : Option V0 :=
  if s.clusV0.length > 0 then
    (inwardPass env s.clusV0.reverse (env.resetCovariance s.hypV0.base)).map
      (fun t => { s.hypV0 with base := t })
  else some s.hypV0

/-- The tail of `HyperTracker::process` after both attachment passes
(lines 106-111): the final 3-body refit, then the acceptance test
`isProcessed >= nClusMatching`. -/
def refitPhase (env : Env) (nClusMatching : ℕ) (v : V0) (isProcessed : ℕ) :
    V0 ⊕ Reason :=
  match Refit3Body env v with
  | none => Sum.inr .refitFail
  | some v2 =>
    if nClusMatching ≤ isProcessed then Sum.inl v2 else Sum.inr .belowMin

/-- Everything of `HyperTracker::process` after the per-hit loop. -/
def afterLoop (env : Env) (nClusMatching : ℕ) (s : LoopState) : V0 ⊕ Reason :=
  match inwardPhase env s with
  | none => Sum.inr .inwardFail
  | some v1 => refitPhase env nClusMatching v1 s.isProcessed

/-- `HyperTracker::process` (HyperTracker.cxx lines 63-112), with the visit
trace of the per-hit loop kept as an observable.  `Sum.inl` is the MATCHED
outcome (`return true`, carrying the final `hypV0`), `Sum.inr` the rejection
with the exit that produced it. -/
def process (env : Env) (mInitR2 : ℚ) (nClusMatching : ℕ)
    (hits : List Cluster) (v0 : V0) : List HitEv × (V0 ⊕ Reason) :=
  let r := procLoop env mInitR2 hits
    { hypV0 := v0, clusV0 := [], isProcessed := 0, tryDaughter := true }
  match r.2 with
  | Sum.inl s => (r.1, afterLoop env nClusMatching s)
  | Sum.inr .daughterFail => (r.1, Sum.inr .daughterFail)
  | Sum.inr .zeroAttach => (r.1, Sum.inr .zeroAttach)

/-- The member state a `HyperTracker` constructor establishes. -/
structure HT where
  hyperClusters : List Cluster
  hypV0 : V0
  mInitR2 : ℚ
  nClusMatching : ℕ
deriving DecidableEq

/-- The first `HyperTracker` constructor (HyperTracker.cxx lines 18-36):
stores the mother clusters, records `mInitR2 = v0.calcR2()`, gives the
positive or negative prong absolute charge 2 according to the sign of
`calcV0alpha`, attempts `recreateV0` on the recharged copies (keeping the
original V0 when that fails), and sets `nClusMatching` to the number of
mother clusters (`setNclusMatching(motherClusters.size())`; the setter body
lives in the HyperTracker header, modelled from the spec as storing its
argument). -/
def mkHyperTracker (env : Env) (motherClusters : List Cluster) (v0 : V0) :
    HT :=
  let alphaV0 := calcV0alpha v0
  let posTrack := if 0 < alphaV0 then setAbsCharge v0.prong0 2 else v0.prong0
  let negTrack := if 0 < alphaV0 then v0.prong1 else setAbsCharge v0.prong1 2
  { hyperClusters := motherClusters,
    hypV0 := (recreateV0 env posTrack negTrack v0.id0 v0.id1).getD v0,
    mInitR2 := calcR2 v0,
    nClusMatching := motherClusters.length }

/-- The second `HyperTracker` constructor (HyperTracker.cxx lines 38-42):
stores the given V0 directly and sets `nClusMatching` to the number of mother
clusters; `mInitR2` is left uninitialised by the source, modelled as 0. -/
def mkHyperTracker2 (motherClusters : List Cluster) (v0 : V0) : HT :=
  { hyperClusters := motherClusters,
    hypV0 := v0,
    mInitR2 := 0,
    nClusMatching := motherClusters.length }

/-- `StrangenessTracker::recreateV0` (StrangenessTracker.h lines 174-198).
The output reference `newV0` is modelled by passing its prior value in and
returning its final value next to the boolean result. -/
def ST_recreateV0 (env : Env) (posTrack negTrack : Track)
    (dauID0 dauID1 : ℕ) (newV0 : V0) : Bool × V0 :=
  match env.fitV0 posTrack negTrack with
  | .throws => (false, newV0)
  | .ok nCand propOk propPos propNeg pca cov =>
    if nCand = 0 ∨ propOk = false then (false, newV0)
    else
      let pV0 := vadd propPos.mom propNeg.mom
      (true, mkV0 pca pV0 cov propPos propNeg dauID0 dauID1 PID.hyperTriton)

end StrangenessTracking

namespace StrangenessTracking

/-- Every non-positive or non-finite chi-square value fails the gate
`chi2 < max && chi2 > 0`, whatever the configured maximum is. -/
theorem gate_false_of_not_posFinite (c m : FVal) (h : c.posFinite = false) :
    (c.lt m && (FVal.fin 0).lt c) = false := by
  cases c with
  | nan => simp [FVal.lt]
  | pinf => cases m <;> simp [FVal.lt]
  | ninf => simp [FVal.lt]
  | fin q =>
    simp only [FVal.posFinite, decide_eq_false_iff_not, not_lt] at h
    have : (FVal.fin 0).lt (FVal.fin q) = false := by
      simp [FVal.lt, not_lt.mpr h]
    simp [this]

/-- C1: `updateTrack` accepts a hit iff the frame rotation, the radial
propagation and the material correction all succeed and the predicted
chi-square of the hit against the propagated state passes the gate
`0 < chi2 < mMaxChi2`; on acceptance it performs the Kalman-style update with
the hit and returns success; a non-positive or non-finite chi-square always
leads to rejection. -/
theorem updateTrack_accept_iff (env : Env) (clus : Cluster) (t : Track) :
    ((updateTrack env clus t).1 = true ↔
      ∃ t3, matChain env clus t = some t3 ∧ chi2Gate env clus t3 = true) ∧
    (∀ t3, matChain env clus t = some t3 →
      (chi2Gate env clus t3 = true →
        updateTrack env clus t = (true, env.update t3 clus)) ∧
      ((env.getPredictedChi2 t3 clus).posFinite = false →
        (updateTrack env clus t).1 = false)) := by
  unfold updateTrack matChain
  cases hr : env.rotate t (env.sensorAlpha clus.sensorID) with
  | none => simp
  | some t1 =>
    dsimp only
    cases hp : env.propagateTo t1 clus.x env.bz with
    | none => simp
    | some t2 =>
      dsimp only
      cases hc : env.correctForMaterial t2 (thickOf env clus)
          (thickOf env clus * rho * radl) with
      | none => simp
      | some t3 =>
        dsimp only
        constructor
        · by_cases hg : chi2Gate env clus t3 = true
          · simp [hg]
          · simp only [Bool.not_eq_true] at hg
            simp [hg]
        · rintro t3' ht3'
          rw [Option.some.injEq] at ht3'
          subst ht3'
          refine ⟨fun hg => by simp [hg], fun hnf => ?_⟩
          have hg : chi2Gate env clus t3 = false := by
            unfold chi2Gate
            exact gate_false_of_not_posFinite _ _ hnf
          simp [hg]

/-- Closed witness for `updateTrack_accept_iff`: a concrete environment in
which every physics step succeeds and the chi-square is 1 against a maximum of
2, so the hit is accepted. -/
def envW : Env :=
  { rotate := fun t _ => some { t with aux := t.aux + 1 }
    propagateTo := fun t _ _ => some { t with aux := t.aux + 10 }
    correctForMaterial := fun t _ _ => some { t with aux := t.aux + 100 }
    getPredictedChi2 := fun _ _ => .fin 1
    update := fun t _ => { t with aux := t.aux + 1000 }
    resetCovariance := fun t => t
    sensorAlpha := fun _ => 0
    sensorLayer := fun n => n
    fitV0 := fun _ _ => .throws
    fit3Body := fun _ _ _ => .throws
    bz := -5
    maxChi2 := .fin 2 }

/-- A concrete track used by the witnesses. -/
def trk0 : Track :=
  { pos := ⟨0, 0, 0⟩, mom := ⟨0, 0, 0⟩, cov := [], charge := 1,
    pid := .other 0, aux := 0 }

/-- A concrete cluster used by the witnesses. -/
def clus0 : Cluster := { sensorID := 0, x := 1, y := 0 }

theorem updateTrack_accept_iff_w :
    (updateTrack envW clus0 trk0).1 = true :=
  ((updateTrack_accept_iff envW clus0 trk0).1).mpr
    ⟨{ trk0 with aux := 111 }, by decide, by decide⟩

/-- C2 counterexample: the claim says a rejected attachment leaves the
caller's input track state unmodified, but when the rotation succeeds and the
propagation then fails, `updateTrack` returns rejection with the caller's
state already rotated. -/
def envC2 : Env :=
  { rotate := fun t _ => some { t with aux := t.aux + 1 }
    propagateTo := fun _ _ _ => none
    correctForMaterial := fun t _ _ => some t
    getPredictedChi2 := fun _ _ => .fin 1
    update := fun t _ => t
    resetCovariance := fun t => t
    sensorAlpha := fun _ => 0
    sensorLayer := fun n => n
    fitV0 := fun _ _ => .throws
    fit3Body := fun _ _ _ => .throws
    bz := -5
    maxChi2 := .fin 2 }

theorem updateTrack_reject_modifies_cex :
    (updateTrack envC2 clus0 trk0).1 = false ∧
    (updateTrack envC2 clus0 trk0).2 ≠ trk0 := by decide

/-- C2 amended: on rejection the caller's state is the last successfully
reached intermediate state — unmodified only when the rotation itself fails,
the rotated state when the propagation fails, the propagated state when the
material correction fails, and the material-corrected state when the
chi-square gate fails; the Kalman update is applied only on acceptance.
Since `updateTrack` is a pure function of the hit and the input state,
re-running a rejected attempt on the same inputs reproduces the same
rejection outcome. -/
theorem updateTrack_reject_state (env : Env) (clus : Cluster) (t : Track) :
    (env.rotate t (env.sensorAlpha clus.sensorID) = none →
      updateTrack env clus t = (false, t)) ∧
    (∀ t1, env.rotate t (env.sensorAlpha clus.sensorID) = some t1 →
      (env.propagateTo t1 clus.x env.bz = none →
        updateTrack env clus t = (false, t1)) ∧
      (∀ t2, env.propagateTo t1 clus.x env.bz = some t2 →
        (env.correctForMaterial t2 (thickOf env clus)
            (thickOf env clus * rho * radl) = none →
          updateTrack env clus t = (false, t2)) ∧
        (∀ t3, env.correctForMaterial t2 (thickOf env clus)
            (thickOf env clus * rho * radl) = some t3 →
          chi2Gate env clus t3 = false →
          updateTrack env clus t = (false, t3)))) := by
  unfold updateTrack
  refine ⟨fun hr => by rw [hr], fun t1 hr => ?_⟩
  rw [hr]
  dsimp only
  refine ⟨fun hp => by rw [hp], fun t2 hp => ?_⟩
  rw [hp]
  dsimp only
  refine ⟨fun hc => by rw [hc], fun t3 hc hg => ?_⟩
  rw [hc]
  dsimp only
  rw [hg]
  simp

theorem updateTrack_reject_state_w :
    updateTrack envC2 clus0 trk0 = (false, { trk0 with aux := 1 }) :=
  ((updateTrack_reject_state envC2 clus0 trk0).2 { trk0 with aux := 1 }
    rfl).1 rfl

/-- The V0-compatibility branch either attaches the cluster (incrementing the
counter, clearing the fallback flag, appending the cluster) or leaves
everything except the V0 base untouched. -/
theorem v0Branch_cases (env : Env) (r2 : ℚ) (s : LoopState) (c : Cluster) :
    ((v0Branch env r2 s c).1 = true ∧
      (v0Branch env r2 s c).2.isProcessed = s.isProcessed + 1 ∧
      (v0Branch env r2 s c).2.tryDaughter = false ∧
      (v0Branch env r2 s c).2.clusV0 = s.clusV0 ++ [c]) ∨
    ((v0Branch env r2 s c).1 = false ∧
      (v0Branch env r2 s c).2.isProcessed = s.isProcessed ∧
      (v0Branch env r2 s c).2.tryDaughter = s.tryDaughter ∧
      (v0Branch env r2 s c).2.clusV0 = s.clusV0) := by
  simp only [v0Branch]
  by_cases h1 : r2 - c.x * c.x - c.y * c.y > -4
  · rw [if_pos h1]
    by_cases h2 : (updateTrack env c s.hypV0.base).1 = true
    · rw [if_pos h2]
      left
      exact ⟨rfl, rfl, rfl, rfl⟩
    · rw [if_neg h2]
      right
      exact ⟨rfl, rfl, rfl, rfl⟩
  · rw [if_neg h1]
    right
    exact ⟨rfl, rfl, rfl, rfl⟩

/-- Characterisation of a completed loop iteration: the event records the hit
just scanned; only a mother attachment extends `ITSclusV0`; a cleared fallback
flag stays cleared and forbids the daughter branch; a mother attachment clears
the flag; a skipped hit can only occur once `isProcessed` is positive. -/
theorem procStep_inl (env : Env) (r2 : ℚ) (s : LoopState) (c : Cluster)
    (ev : HitEv) (s' : LoopState)
    (h : procStep env r2 s c = Sum.inl (ev, s')) :
    ev.clus = c ∧
    s'.clusV0 = s.clusV0 ++ (ev.motherClus.elim [] fun x => [x]) ∧
    (s.tryDaughter = false → s'.tryDaughter = false ∧ ∀ c', ev ≠ .daughter c') ∧
    (∀ c', ev = .mother c' → s'.tryDaughter = false) ∧
    (∀ c', ev = .skip c' → 0 < s.isProcessed) := by
  have hv := v0Branch_cases env r2 s c
  simp only [procStep] at h
  by_cases hg : (r2 - c.x * c.x - c.y * c.y < 4) ∧
      (v0Branch env r2 s c).2.tryDaughter = true
  · rw [if_pos hg] at h
    by_cases hu : (updateTrack env c
        (he3Prong (v0Branch env r2 s c).2.hypV0)).1 = true
    · rw [if_pos hu] at h
      rw [Sum.inl.injEq, Prod.mk.injEq] at h
      obtain ⟨hev, hs'⟩ := h
      subst hev
      subst hs'
      rcases hv with ⟨_, _, hf, _⟩ | ⟨_, _, hf, hcl⟩
      · rw [hf] at hg
        exact absurd hg.2 (by simp)
      · refine ⟨rfl, by simp [HitEv.motherClus, hcl], fun hsd => ?_, ?_, ?_⟩
        · rw [hsd] at hf
          rw [hf] at hg
          exact absurd hg.2 (by simp)
        · intro c' hc'
          cases hc'
        · intro c' hc'
          cases hc'
    · rw [if_neg hu] at h
      cases h
  · rw [if_neg hg] at h
    by_cases hr : (v0Branch env r2 s c).1 = true
    · rw [if_pos hr] at h
      rw [Sum.inl.injEq, Prod.mk.injEq] at h
      obtain ⟨hev, hs'⟩ := h
      subst hev
      subst hs'
      rcases hv with ⟨_, _, hf, hcl⟩ | ⟨hrf, _, _, _⟩
      · refine ⟨rfl, by simp [HitEv.motherClus, hcl], fun _ => ⟨hf, ?_⟩,
          fun _ _ => hf, ?_⟩
        · intro c' hc'
          cases hc'
        · intro c' hc'
          cases hc'
      · rw [hrf] at hr
        cases hr
    · rw [if_neg hr] at h
      by_cases hz : (v0Branch env r2 s c).2.isProcessed = 0
      · rw [if_pos hz] at h
        cases h
      · rw [if_neg hz] at h
        rw [Sum.inl.injEq, Prod.mk.injEq] at h
        obtain ⟨hev, hs'⟩ := h
        subst hev
        subst hs'
        rcases hv with ⟨hrt, _, _, _⟩ | ⟨_, hp, hf, hcl⟩
        · rw [hrt] at hr
          exact absurd rfl hr
        · refine ⟨rfl, by simp [HitEv.motherClus, hcl], fun hsd => ⟨?_, ?_⟩,
            ?_, fun _ _ => ?_⟩
          · rw [hf, hsd]
          · intro c' hc'
            cases hc'
          · intro c' hc'
            cases hc'
          · rw [hp] at hz
            omega

/-- A completed iteration increments `isProcessed` exactly when it attached
the hit (to the mother or to the daughter). -/
theorem procStep_count (env : Env) (r2 : ℚ) (s : LoopState) (c : Cluster)
    (ev : HitEv) (s' : LoopState)
    (h : procStep env r2 s c = Sum.inl (ev, s')) :
    s'.isProcessed = s.isProcessed + (if ev.attached then 1 else 0) := by
  have hv := v0Branch_cases env r2 s c
  simp only [procStep] at h
  by_cases hg : (r2 - c.x * c.x - c.y * c.y < 4) ∧
      (v0Branch env r2 s c).2.tryDaughter = true
  · rw [if_pos hg] at h
    by_cases hu : (updateTrack env c
        (he3Prong (v0Branch env r2 s c).2.hypV0)).1 = true
    · rw [if_pos hu] at h
      rw [Sum.inl.injEq, Prod.mk.injEq] at h
      obtain ⟨hev, hs'⟩ := h
      subst hev
      subst hs'
      rcases hv with ⟨_, _, hf, _⟩ | ⟨_, hp, _, _⟩
      · rw [hf] at hg
        exact absurd hg.2 (by simp)
      · simp [HitEv.attached, hp]
    · rw [if_neg hu] at h
      cases h
  · rw [if_neg hg] at h
    by_cases hr : (v0Branch env r2 s c).1 = true
    · rw [if_pos hr] at h
      rw [Sum.inl.injEq, Prod.mk.injEq] at h
      obtain ⟨hev, hs'⟩ := h
      subst hev
      subst hs'
      rcases hv with ⟨_, hp, _, _⟩ | ⟨hrf, _, _, _⟩
      · simp [HitEv.attached, hp]
      · rw [hrf] at hr
        cases hr
    · rw [if_neg hr] at h
      by_cases hz : (v0Branch env r2 s c).2.isProcessed = 0
      · rw [if_pos hz] at h
        cases h
      · rw [if_neg hz] at h
        rw [Sum.inl.injEq, Prod.mk.injEq] at h
        obtain ⟨hev, hs'⟩ := h
        subst hev
        subst hs'
        rcases hv with ⟨hrt, _, _, _⟩ | ⟨_, hp, _, _⟩
        · rw [hrt] at hr
          exact absurd rfl hr
        · simp [HitEv.attached, hp]

/-- Over a completed scan, `isProcessed` grows by exactly the number of
attachment events in the trace. -/
theorem procLoop_attach_count (env : Env) (r2 : ℚ) :
    ∀ (hits : List Cluster) (s : LoopState) (tr : List HitEv)
      (s' : LoopState),
    procLoop env r2 hits s = (tr, Sum.inl s') →
      s'.isProcessed = s.isProcessed + tr.countP HitEv.attached := by
  intro hits
  induction hits with
  | nil =>
    intro s tr s' h
    simp only [procLoop] at h
    rw [Prod.mk.injEq] at h
    obtain ⟨h1, h2⟩ := h
    subst h1
    rw [Sum.inl.injEq] at h2
    subst h2
    simp
  | cons c rest ih =>
    intro s tr s' h
    simp only [procLoop] at h
    cases hstep : procStep env r2 s c with
    | inr f =>
      rw [hstep] at h
      rw [Prod.mk.injEq] at h
      cases h.2
    | inl p =>
      obtain ⟨ev, s1⟩ := p
      rw [hstep] at h
      rw [Prod.mk.injEq] at h
      obtain ⟨h1, h2⟩ := h
      subst h1
      have hcount := procStep_count env r2 s c ev s1 hstep
      have hrest := ih s1 (procLoop env r2 rest s1).1 s' (by rw [← h2])
      rw [List.countP_cons, hrest, hcount]
      cases hev : ev.attached
      · simp
      · simp
        ring

/-- A `return false` inside the per-hit loop ends the whole scan at once:
the remaining hits are never examined. -/
theorem procLoop_cons_fail (env : Env) (r2 : ℚ) (s : LoopState) (c : Cluster)
    (rest : List Cluster) (f : LoopFail)
    (h : procStep env r2 s c = Sum.inr f) :
    procLoop env r2 (c :: rest) s = ([], Sum.inr f) := by
  simp only [procLoop]
  rw [h]

/-- The `isProcessed == 0` exit can only fire when no attachment at all has
been made yet. -/
theorem procStep_zeroAttach (env : Env) (r2 : ℚ) (s : LoopState) (c : Cluster)
    (h : procStep env r2 s c = Sum.inr LoopFail.zeroAttach) :
    s.isProcessed = 0 := by
  have hv := v0Branch_cases env r2 s c
  simp only [procStep] at h
  by_cases hg : (r2 - c.x * c.x - c.y * c.y < 4) ∧
      (v0Branch env r2 s c).2.tryDaughter = true
  · rw [if_pos hg] at h
    by_cases hu : (updateTrack env c
        (he3Prong (v0Branch env r2 s c).2.hypV0)).1 = true
    · rw [if_pos hu] at h
      cases h
    · rw [if_neg hu] at h
      cases h
  · rw [if_neg hg] at h
    by_cases hr : (v0Branch env r2 s c).1 = true
    · rw [if_pos hr] at h
      cases h
    · rw [if_neg hr] at h
      by_cases hz : (v0Branch env r2 s c).2.isProcessed = 0
      · rcases hv with ⟨hrt, _, _, _⟩ | ⟨_, hp, _, _⟩
        · rw [hrt] at hr
          exact absurd rfl hr
        · rw [hp] at hz
          exact hz
      · rw [if_neg hz] at h
        cases h

/-- With the fallback flag cleared, an iteration can neither produce a
daughter event nor fail the daughter attachment, and the flag stays
cleared. -/
theorem procStep_flagOff (env : Env) (r2 : ℚ) (s : LoopState) (c : Cluster)
    (hs : s.tryDaughter = false) :
    (∀ f, procStep env r2 s c = Sum.inr f → f = LoopFail.zeroAttach) ∧
    (∀ ev s', procStep env r2 s c = Sum.inl (ev, s') →
      s'.tryDaughter = false ∧ ∀ c', ev ≠ .daughter c') := by
  have hv := v0Branch_cases env r2 s c
  have hflag : (v0Branch env r2 s c).2.tryDaughter = false := by
    rcases hv with ⟨_, _, hf, _⟩ | ⟨_, _, hf, _⟩
    · exact hf
    · rw [hf, hs]
  have hg : ¬ ((r2 - c.x * c.x - c.y * c.y < 4) ∧
      (v0Branch env r2 s c).2.tryDaughter = true) := by
    rintro ⟨_, hcontra⟩
    rw [hflag] at hcontra
    cases hcontra
  constructor
  · intro f hf
    simp only [procStep] at hf
    rw [if_neg hg] at hf
    by_cases hr : (v0Branch env r2 s c).1 = true
    · rw [if_pos hr] at hf
      cases hf
    · rw [if_neg hr] at hf
      by_cases hz : (v0Branch env r2 s c).2.isProcessed = 0
      · rw [if_pos hz] at hf
        cases hf
        rfl
      · rw [if_neg hz] at hf
        cases hf
  · intro ev s' hf
    simp only [procStep] at hf
    rw [if_neg hg] at hf
    by_cases hr : (v0Branch env r2 s c).1 = true
    · rw [if_pos hr] at hf
      rw [Sum.inl.injEq, Prod.mk.injEq] at hf
      obtain ⟨hev, hs'⟩ := hf
      subst hev
      subst hs'
      exact ⟨hflag, fun c' hc' => by cases hc'⟩
    · rw [if_neg hr] at hf
      by_cases hz : (v0Branch env r2 s c).2.isProcessed = 0
      · rw [if_pos hz] at hf
        cases hf
      · rw [if_neg hz] at hf
        rw [Sum.inl.injEq, Prod.mk.injEq] at hf
        obtain ⟨hev, hs'⟩ := hf
        subst hev
        subst hs'
        exact ⟨hflag, fun c' hc' => by cases hc'⟩

/-- Once the fallback flag is cleared, the rest of the scan contains no
daughter events and cannot end in a daughter-attachment failure. -/
theorem procLoop_flagOff (env : Env) (r2 : ℚ) :
    ∀ (hits : List Cluster) (s : LoopState), s.tryDaughter = false →
    ∀ tr res, procLoop env r2 hits s = (tr, res) →
      (∀ e ∈ tr, ∀ c', e ≠ HitEv.daughter c') ∧
      res ≠ Sum.inr LoopFail.daughterFail := by
  intro hits
  induction hits with
  | nil =>
    intro s hs tr res h
    simp only [procLoop] at h
    rw [Prod.mk.injEq] at h
    obtain ⟨h1, h2⟩ := h
    subst h1
    subst h2
    exact ⟨by simp, by simp⟩
  | cons c rest ih =>
    intro s hs tr res h
    simp only [procLoop] at h
    cases hstep : procStep env r2 s c with
    | inl p =>
      obtain ⟨ev, s'⟩ := p
      rw [hstep] at h
      rw [Prod.mk.injEq] at h
      obtain ⟨h1, h2⟩ := h
      subst h1
      subst h2
      obtain ⟨hflag', hnd⟩ := (procStep_flagOff env r2 s c hs).2 ev s' hstep
      obtain ⟨htr, hres⟩ := ih s' hflag' _ _ rfl
      refine ⟨?_, hres⟩
      intro e he c'
      rcases List.mem_cons.mp he with he | he
      · subst he
        exact hnd c'
      · exact htr e he c'
    | inr f =>
      rw [hstep] at h
      rw [Prod.mk.injEq] at h
      obtain ⟨h1, h2⟩ := h
      subst h1
      subst h2
      have := (procStep_flagOff env r2 s c hs).1 f hstep
      subst this
      exact ⟨by simp, by simp⟩

/-- After a mother attachment, the remainder of the scan contains no daughter
events and cannot end in a daughter-attachment failure. -/
theorem procLoop_after_mother (env : Env) (r2 : ℚ) :
    ∀ (hits : List Cluster) (s : LoopState) (tr : List HitEv)
      (res : LoopState ⊕ LoopFail),
    procLoop env r2 hits s = (tr, res) →
    ∀ tr1 c1 tr2, tr = tr1 ++ HitEv.mother c1 :: tr2 →
      (∀ e ∈ tr2, ∀ c2, e ≠ HitEv.daughter c2) ∧
      res ≠ Sum.inr LoopFail.daughterFail := by
  intro hits
  induction hits with
  | nil =>
    intro s tr res h tr1 c1 tr2 hsplit
    simp only [procLoop] at h
    rw [Prod.mk.injEq] at h
    obtain ⟨h1, _⟩ := h
    subst h1
    exact absurd hsplit.symm (by simp)
  | cons c rest ih =>
    intro s tr res h tr1 c1 tr2 hsplit
    simp only [procLoop] at h
    cases hstep : procStep env r2 s c with
    | inl p =>
      obtain ⟨ev, s'⟩ := p
      rw [hstep] at h
      rw [Prod.mk.injEq] at h
      obtain ⟨h1, h2⟩ := h
      subst h1
      subst h2
      cases tr1 with
      | nil =>
        rw [List.nil_append] at hsplit
        rw [List.cons.injEq] at hsplit
        obtain ⟨hev, htail⟩ := hsplit
        subst hev
        have hflag' : s'.tryDaughter = false :=
          (procStep_inl env r2 s c _ s' hstep).2.2.2.1 c1 rfl
        obtain ⟨htr, hres⟩ := procLoop_flagOff env r2 rest s' hflag' _ _ rfl
        rw [htail] at htr
        exact ⟨htr, hres⟩
      | cons e0 tr1' =>
        rw [List.cons_append] at hsplit
        rw [List.cons.injEq] at hsplit
        obtain ⟨_, htail⟩ := hsplit
        exact ih s' _ _ rfl tr1' c1 tr2 htail
    | inr f =>
      rw [hstep] at h
      rw [Prod.mk.injEq] at h
      obtain ⟨h1, _⟩ := h
      subst h1
      exact absurd hsplit.symm (by simp)

/-- A concrete V0 used by the concrete runs: all-zero kinematics. -/
def v0X : V0 :=
  { base := trk0, prong0 := trk0, prong1 := trk0, id0 := 0, id1 := 1 }

/-- The loop state at entry of `HyperTracker::process`. -/
def init0 : LoopState :=
  { hypV0 := v0X, clusV0 := [], isProcessed := 0, tryDaughter := true }

/-- Environment for the C3 counterexample: the rotation fails exactly on the
sensor frame of cluster `cl31` and succeeds elsewhere; every other step
succeeds with chi-square 1 against a maximum of 2. -/
def envC3 : Env :=
  { rotate := fun t a => if a = 0 then some t else none
    propagateTo := fun t _ _ => some t
    correctForMaterial := fun t _ _ => some t
    getPredictedChi2 := fun _ _ => .fin 1
    update := fun t _ => t
    resetCovariance := fun t => t
    sensorAlpha := fun n => if n = 1 then 1 else 0
    sensorLayer := fun n => n
    fitV0 := fun _ _ => .throws
    fit3Body := fun _ _ _ => .throws
    bz := -5
    maxChi2 := .fin 2 }

/-- First cluster of the C3 counterexample: with `mInitR2 = 5` its
`diffR2 = 4`, so only the V0 branch is tried, and its rotation fails. -/
def cl31 : Cluster := { sensorID := 1, x := 1, y := 0 }

/-- Second cluster of the C3 counterexample: it would attach to the combined
candidate if it were ever scanned. -/
def cl32 : Cluster := { sensorID := 2, x := 0, y := 0 }

/-- C3 counterexample: the claim says a hit yielding neither attachment does
not by itself end the scan, and that the candidate is rejected for lack of
attachments only after scanning all hits.  In this concrete run the first of
two hits completes with neither attachment and the loop immediately exits
with the zero-attachment rejection: the trace is empty although two hits were
given, and the second hit — which attaches to the combined candidate when
scanned on its own — is never examined. -/
theorem procLoop_zeroAttach_midscan_cex :
    procLoop envC3 5 [cl31, cl32] init0 = ([], Sum.inr LoopFail.zeroAttach) ∧
    (procLoop envC3 5 [cl31, cl32] init0).1.length + 1 ≠
      ([cl31, cl32] : List Cluster).length ∧
    (procLoop envC3 5 [cl32] init0).1 = [HitEv.mother cl32] := by
  have h1 : procLoop envC3 5 [cl31, cl32] init0 =
      ([], Sum.inr LoopFail.zeroAttach) := by
    norm_num [procLoop, procStep, v0Branch, updateTrack, envC3, cl31, cl32,
      init0, v0X, trk0, thickOf, chi2Gate, FVal.lt, he3Prong, setHe3Prong,
      calcV0alpha, dot]
  have h2 : (procLoop envC3 5 [cl32] init0).1 = [HitEv.mother cl32] := by
    norm_num [procLoop, procStep, v0Branch, updateTrack, envC3, cl32,
      init0, v0X, trk0, thickOf, chi2Gate, FVal.lt, he3Prong, setHe3Prong,
      calcV0alpha, dot]
  exact ⟨h1, by rw [h1]; decide, h2⟩

/-- C3 amended: the zero-attachment check runs at the end of every loop
iteration, not only after the last hit.  A hit that completes with neither
attachment while the total attachment count is still zero rejects the
candidate on the spot, without scanning the remaining hits; a hit yielding
neither attachment continues the scan only when at least one attachment was
already made. -/
theorem procLoop_zero_check_each_iteration (env : Env) (r2 : ℚ)
    (s : LoopState) (c : Cluster) (rest : List Cluster) :
    (0 < s.isProcessed → procStep env r2 s c ≠ Sum.inr LoopFail.zeroAttach) ∧
    (s.isProcessed = 0 →
      ∀ c' s', procStep env r2 s c ≠ Sum.inl (HitEv.skip c', s')) ∧
    (∀ f, procStep env r2 s c = Sum.inr f →
      procLoop env r2 (c :: rest) s = ([], Sum.inr f)) := by
  refine ⟨?_, ?_, fun f hf => procLoop_cons_fail env r2 s c rest f hf⟩
  · intro hpos hcontra
    have := procStep_zeroAttach env r2 s c hcontra
    omega
  · intro hz c' s' hcontra
    have := (procStep_inl env r2 s c _ s' hcontra).2.2.2.2 c' rfl
    omega

theorem procLoop_zero_check_each_iteration_w :
    procLoop envC3 5 [cl31] init0 = ([], Sum.inr LoopFail.zeroAttach) :=
  (procLoop_zero_check_each_iteration envC3 5 init0 cl31 []).2.2
    LoopFail.zeroAttach (by
      norm_num [procStep, v0Branch, updateTrack, envC3, cl31, init0, v0X,
        trk0, thickOf, chi2Gate, FVal.lt, he3Prong, setHe3Prong,
        calcV0alpha, dot])

/-- C4: once the single-daughter fallback branch is entered for a hit, a
failed attachment rejects the whole candidate immediately (the remaining hits
are never scanned and `process` returns the daughter-failure rejection); and
once a hit has been attached to the combined candidate the fallback flag is
cleared, so no later hit of the candidate ever enters the single-daughter
branch or fails it. -/
theorem process_daughter_fallback (env : Env) (r2 : ℚ) :
    (∀ s c, (r2 - c.x * c.x - c.y * c.y < 4) →
      (v0Branch env r2 s c).2.tryDaughter = true →
      (updateTrack env c (he3Prong (v0Branch env r2 s c).2.hypV0)).1 = false →
      procStep env r2 s c = Sum.inr LoopFail.daughterFail) ∧
    (∀ s c rest, procStep env r2 s c = Sum.inr LoopFail.daughterFail →
      procLoop env r2 (c :: rest) s = ([], Sum.inr LoopFail.daughterFail)) ∧
    (∀ n hits v0 tr, procLoop env r2 hits
        { hypV0 := v0, clusV0 := [], isProcessed := 0, tryDaughter := true } =
        (tr, Sum.inr LoopFail.daughterFail) →
      (process env r2 n hits v0).2 = Sum.inr Reason.daughterFail) ∧
    (∀ s c ev s', procStep env r2 s c = Sum.inl (ev, s') →
      ∀ c', ev = HitEv.mother c' → s'.tryDaughter = false) ∧
    (∀ hits s tr res, procLoop env r2 hits s = (tr, res) →
      ∀ tr1 c1 tr2, tr = tr1 ++ HitEv.mother c1 :: tr2 →
        (∀ e ∈ tr2, ∀ c2, e ≠ HitEv.daughter c2) ∧
        res ≠ Sum.inr LoopFail.daughterFail) := by
  refine ⟨?_, fun s c rest hf => procLoop_cons_fail env r2 s c rest _ hf,
    ?_, fun s c ev s' h => (procStep_inl env r2 s c ev s' h).2.2.2.1,
    fun hits s tr res h => procLoop_after_mother env r2 hits s tr res h⟩
  · intro s c h1 h2 h3
    simp only [procStep]
    rw [if_pos ⟨h1, h2⟩]
    rw [if_neg (by simp [h3])]
  · intro n hits v0 tr h
    simp only [process]
    rw [h]

/-- The per-hit loop scans the clusters in their stored order, one event per
scanned hit, and `ITSclusV0` accumulates exactly the mother-attached clusters
in scan order. -/
theorem procLoop_trace (env : Env) (r2 : ℚ) :
    ∀ (hits : List Cluster) (s : LoopState) (tr : List HitEv)
      (res : LoopState ⊕ LoopFail),
    procLoop env r2 hits s = (tr, res) →
      tr.map HitEv.clus = hits.take tr.length ∧
      (∀ s', res = Sum.inl s' →
        s'.clusV0 = s.clusV0 ++ tr.filterMap HitEv.motherClus) := by
  intro hits
  induction hits with
  | nil =>
    intro s tr res h
    simp only [procLoop] at h
    rw [Prod.mk.injEq] at h
    obtain ⟨h1, h2⟩ := h
    subst h1
    subst h2
    refine ⟨by simp, ?_⟩
    rintro s' hs'
    rw [Sum.inl.injEq] at hs'
    subst hs'
    simp
  | cons c rest ih =>
    intro s tr res h
    simp only [procLoop] at h
    cases hstep : procStep env r2 s c with
    | inr f =>
      rw [hstep] at h
      rw [Prod.mk.injEq] at h
      obtain ⟨h1, h2⟩ := h
      subst h1
      subst h2
      refine ⟨by simp, ?_⟩
      rintro s' hs'
      cases hs'
    | inl p =>
      obtain ⟨ev, s1⟩ := p
      rw [hstep] at h
      rw [Prod.mk.injEq] at h
      obtain ⟨h1, h2⟩ := h
      subst h1
      subst h2
      obtain ⟨hmap, hclus⟩ := ih s1 _ _ rfl
      have hev := procStep_inl env r2 s c ev s1 hstep
      constructor
      · simp only [List.map_cons, List.length_cons, List.take_succ_cons]
        rw [hev.1, hmap]
      · intro s' hres
        rw [hclus s' hres, hev.2.1]
        cases hm : ev.motherClus with
        | none => simp [List.filterMap_cons, hm]
        | some x => simp [List.filterMap_cons, hm]

theorem process_daughter_fallback_w :
    procStep envC2 0 init0 { sensorID := 0, x := 3, y := 0 } =
      Sum.inr LoopFail.daughterFail :=
  (process_daughter_fallback envC2 0).1 init0 { sensorID := 0, x := 3, y := 0 }
    (by norm_num)
    (by norm_num [v0Branch, init0])
    (by norm_num [v0Branch, init0, v0X, trk0, updateTrack, envC2, he3Prong,
      calcV0alpha, dot, thickOf])

/-- Environment in which every physics step succeeds and both fitters return
one candidate; used by the witnesses for the matching outcome. -/
def envOK : Env :=
  { rotate := fun t _ => some t
    propagateTo := fun t _ _ => some t
    correctForMaterial := fun t _ _ => some t
    getPredictedChi2 := fun _ _ => .fin 1
    update := fun t _ => t
    resetCovariance := fun t => t
    sensorAlpha := fun _ => 0
    sensorLayer := fun n => n
    fitV0 := fun p n => .ok 1 true p n ⟨0, 0, 0⟩ []
    fit3Body := fun _ p n => .ok 1 true p n ⟨0, 0, 0⟩ []
    bz := -5
    maxChi2 := .fin 2 }

/-- The V0 produced by `Refit3Body envOK v0X`. -/
def vRefit0 : V0 :=
  { mkV0 ⟨0, 0, 0⟩ (vadd trk0.mom trk0.mom) [] trk0 trk0 v0X.id0 v0X.id1
      PID.hyperTriton with
    base := setAbsCharge (mkV0 ⟨0, 0, 0⟩ (vadd trk0.mom trk0.mom) [] trk0
      trk0 v0X.id0 v0X.id1 PID.hyperTriton).base 1 }

/-- C5: the configured minimum is set by both constructors to the number of
clusters of the upstream mother track; when the per-hit loop, the second
attachment pass and the final 3-body refit all succeed, `process` reports
MATCHED exactly when the total attachment count reaches that minimum — in
particular attaching exactly the minimum is MATCHED and one fewer is
REJECTED. -/
theorem process_min_threshold :
    (∀ (env : Env) (mcl : List Cluster) (v0 : V0),
      (mkHyperTracker env mcl v0).nClusMatching = mcl.length ∧
      (mkHyperTracker2 mcl v0).nClusMatching = mcl.length) ∧
    (∀ (env : Env) (r2 : ℚ) (hits : List Cluster) (v0 : V0)
        (tr : List HitEv) (s : LoopState),
      procLoop env r2 hits
        { hypV0 := v0, clusV0 := [], isProcessed := 0, tryDaughter := true } =
        (tr, Sum.inl s) →
      s.isProcessed = tr.countP HitEv.attached) ∧
    (∀ (env : Env) (r2 : ℚ) (n : ℕ) (hits : List Cluster) (v0 : V0)
        (tr : List HitEv) (s : LoopState),
      procLoop env r2 hits
        { hypV0 := v0, clusV0 := [], isProcessed := 0, tryDaughter := true } =
        (tr, Sum.inl s) →
      (process env r2 n hits v0).2 = afterLoop env n s) ∧
    (∀ (env : Env) (n : ℕ) (s : LoopState) (v1 v2 : V0),
      inwardPhase env s = some v1 → Refit3Body env v1 = some v2 →
      ((afterLoop env n s = Sum.inl v2 ↔ n ≤ s.isProcessed) ∧
       (s.isProcessed = n → afterLoop env n s = Sum.inl v2) ∧
       (s.isProcessed + 1 = n →
         afterLoop env n s = Sum.inr Reason.belowMin))) := by
  refine ⟨fun env mcl v0 => ⟨rfl, rfl⟩, ?_, ?_, ?_⟩
  · intro env r2 hits v0 tr s h
    have := procLoop_attach_count env r2 hits _ tr s h
    simpa using this
  · intro env r2 n hits v0 tr s h
    simp only [process]
    rw [h]
  · intro env n s v1 v2 h1 h2
    unfold afterLoop refitPhase
    rw [h1]
    dsimp only
    rw [h2]
    dsimp only
    by_cases hn : n ≤ s.isProcessed
    · rw [if_pos hn]
      refine ⟨⟨fun _ => hn, fun _ => rfl⟩, fun _ => rfl, fun hless => ?_⟩
      exact absurd hn (by omega)
    · rw [if_neg hn]
      refine ⟨⟨fun hcontra => ?_, fun hcontra => absurd hcontra hn⟩,
        fun heq => absurd (by omega : n ≤ s.isProcessed) hn, fun _ => rfl⟩
      cases hcontra

theorem process_min_threshold_w :
    afterLoop envOK 0 init0 = Sum.inl vRefit0 :=
  ((process_min_threshold).2.2.2 envOK 0 init0 v0X vRefit0 rfl rfl).2.1 rfl

/-- First cluster of the C6 run, outermost (squared radius 100). -/
def clO6 : Cluster := { sensorID := 3, x := 10, y := 0 }

/-- Second cluster of the C6 run, innermost (squared radius 25). -/
def clI6 : Cluster := { sensorID := 4, x := 5, y := 0 }

/-- C6 counterexample: the claim says the first attachment pass proceeds
outward (increasing radius) and the second pass inward (innermost last).  The
loop visits the clusters in their stored order, and the source stores them
outermost first (`auto& outerClus = hyperClusters[0]` in `getMatchingChi2`;
the reversed second pass is the one the source comments as
`// outward V0 propagation`).  In this concrete run both hits attach to the
combined candidate: the first pass visits squared radii 100 then 25 — not
increasing — and the reversed list handed to the second pass has squared
radii 25 then 100 — not decreasing, i.e. the second pass is the outward
one. -/
theorem process_first_pass_not_outward_cex :
    (procLoop envW 101 [clO6, clI6] init0).1.map
        (fun e => e.clus.x * e.clus.x + e.clus.y * e.clus.y) =
      [100, 25] ∧
    ¬ List.Chain' (· < ·) ([100, 25] : List ℚ) ∧
    (procLoop envW 101 [clO6, clI6] init0).2.elim
        (fun s => s.clusV0.reverse.map fun c => c.x * c.x + c.y * c.y)
        (fun _ => []) =
      [25, 100] ∧
    ¬ List.Chain' (· > ·) ([25, 100] : List ℚ) := by
  have hrun : procLoop envW 101 [clO6, clI6] init0 =
      ([HitEv.mother clO6, HitEv.mother clI6],
        Sum.inl
          { hypV0 := { v0X with base := { trk0 with aux := 2222 } },
            clusV0 := [clO6, clI6], isProcessed := 2, tryDaughter := false }) := by
    norm_num [procLoop, procStep, v0Branch, updateTrack, envW, clO6, clI6,
      init0, v0X, trk0, thickOf, chi2Gate, FVal.lt, he3Prong, setHe3Prong,
      calcV0alpha, dot]
  rw [hrun]
  refine ⟨by norm_num [HitEv.clus, clO6, clI6], ?_, ?_, ?_⟩
  · intro hch
    rw [List.chain'_cons] at hch
    exact absurd hch.1 (by norm_num)
  · norm_num [clO6, clI6]
  · intro hch
    rw [List.chain'_cons] at hch
    exact absurd hch.1 (by norm_num)

/-- C6 amended: the first attachment pass visits the hits in their stored
order (the source keeps them outermost first, so the pass runs inward), one
event per scanned hit, and `ITSclusV0` collects exactly the mother-attached
hits in that order.  If and only if at least one hit was attached to the
combined candidate, the second pass resets the candidate's covariance,
reverses the collected list (so this pass runs outward, innermost first) and
re-runs the attachment on each hit; any failure of the second pass rejects
the candidate. -/
theorem process_pass_structure (env : Env) (r2 : ℚ) (n : ℕ) :
    (∀ hits s tr res, procLoop env r2 hits s = (tr, res) →
      tr.map HitEv.clus = hits.take tr.length ∧
      (∀ s', res = Sum.inl s' →
        s'.clusV0 = s.clusV0 ++ tr.filterMap HitEv.motherClus)) ∧
    (∀ s : LoopState, s.clusV0 = [] →
      afterLoop env n s = refitPhase env n s.hypV0 s.isProcessed) ∧
    (∀ s : LoopState, s.clusV0 ≠ [] →
      afterLoop env n s =
        match inwardPass env s.clusV0.reverse
            (env.resetCovariance s.hypV0.base) with
        | none => Sum.inr Reason.inwardFail
        | some t =>
          refitPhase env n { s.hypV0 with base := t } s.isProcessed) ∧
    (∀ s : LoopState, inwardPhase env s = none →
      afterLoop env n s = Sum.inr Reason.inwardFail) := by
  refine ⟨fun hits s tr res h => procLoop_trace env r2 hits s tr res h,
    ?_, ?_, ?_⟩
  · intro s hs
    unfold afterLoop inwardPhase
    rw [hs]
    simp only [List.length_nil, gt_iff_lt, lt_self_iff_false, if_false]
  · intro s hs
    unfold afterLoop inwardPhase
    have hlen : s.clusV0.length > 0 := List.length_pos.mpr hs
    rw [if_pos hlen]
    cases hpass : inwardPass env s.clusV0.reverse
        (env.resetCovariance s.hypV0.base) with
    | none => simp [hpass]
    | some t => simp [hpass]
  · intro s hs
    unfold afterLoop
    rw [hs]

theorem process_pass_structure_w :
    afterLoop envOK 0 init0 = refitPhase envOK 0 init0.hypV0 0 :=
  (process_pass_structure envOK 0 0).2.1 init0 rfl

/-- C7: all three vertex-refit wrappers — `HyperTracker::recreateV0`,
`StrangenessTracker::recreateV0` and `HyperTracker::Refit3Body` — convert a
thrown `std::runtime_error` from the solver into a boolean failure result,
and treat a solver report of zero candidates identically; no exception
crosses the refit boundary. -/
theorem refits_convert_solver_failures (env : Env) :
    (∀ p n i0 i1, env.fitV0 p n = FitOutcome.throws →
      recreateV0 env p n i0 i1 = none) ∧
    (∀ p n i0 i1 pok t0 t1 pca cov,
      env.fitV0 p n = FitOutcome.ok 0 pok t0 t1 pca cov →
      recreateV0 env p n i0 i1 = none) ∧
    (∀ p n d0 d1 v, env.fitV0 p n = FitOutcome.throws →
      ST_recreateV0 env p n d0 d1 v = (false, v)) ∧
    (∀ p n d0 d1 v pok t0 t1 pca cov,
      env.fitV0 p n = FitOutcome.ok 0 pok t0 t1 pca cov →
      ST_recreateV0 env p n d0 d1 v = (false, v)) ∧
    (∀ v : V0, env.fit3Body v.base v.prong0 v.prong1 = FitOutcome.throws →
      Refit3Body env v = none) ∧
    (∀ (v : V0) pok t0 t1 pca cov,
      env.fit3Body v.base v.prong0 v.prong1 =
        FitOutcome.ok 0 pok t0 t1 pca cov →
      Refit3Body env v = none) := by
  refine ⟨?_, ?_, ?_, ?_, ?_, ?_⟩
  · intro p n i0 i1 hf
    simp only [recreateV0]
    rw [hf]
  · intro p n i0 i1 pok t0 t1 pca cov hf
    simp only [recreateV0]
    rw [hf]
    simp
  · intro p n d0 d1 v hf
    simp only [ST_recreateV0]
    rw [hf]
  · intro p n d0 d1 v pok t0 t1 pca cov hf
    simp only [ST_recreateV0]
    rw [hf]
    simp
  · intro v hf
    simp only [Refit3Body]
    rw [hf]
  · intro v pok t0 t1 pca cov hf
    simp only [Refit3Body]
    rw [hf]
    simp

theorem refits_convert_solver_failures_w :
    recreateV0 envW trk0 trk0 0 1 = none ∧
    ST_recreateV0 envW trk0 trk0 0 1 v0X = (false, v0X) ∧
    Refit3Body envW v0X = none :=
  ⟨(refits_convert_solver_failures envW).1 trk0 trk0 0 1 rfl,
   (refits_convert_solver_failures envW).2.2.1 trk0 trk0 0 1 v0X rfl,
   (refits_convert_solver_failures envW).2.2.2.2.1 v0X rfl⟩

/-- C8: every successful V0 reconstruction builds a candidate whose
3-momentum is the componentwise sum of the two post-fit prong momenta and
which carries the HyperTriton PID hypothesis; `HyperTracker::recreateV0`
forces absolute charge 1 via `setAbsCharge(1)`, while the
`StrangenessTracker` variant carries the total charge of the daughter pair,
which is 1 for the spec's charge-2/charge-(-1) pairing. -/
theorem recreateV0_rebuilt_candidate (env : Env) :
    (∀ p n i0 i1 v, recreateV0 env p n i0 i1 = some v →
      v.base.mom = vadd v.prong0.mom v.prong1.mom ∧
      v.base.pid = PID.hyperTriton ∧
      v.base.charge.natAbs = 1) ∧
    (∀ p n d0 d1 vin vout,
      ST_recreateV0 env p n d0 d1 vin = (true, vout) →
      vout.base.mom = vadd vout.prong0.mom vout.prong1.mom ∧
      vout.base.pid = PID.hyperTriton ∧
      (vout.prong0.charge + vout.prong1.charge = 1 →
        vout.base.charge.natAbs = 1)) := by
  constructor
  · intro p n i0 i1 v h
    simp only [recreateV0] at h
    cases hf : env.fitV0 p n with
    | throws =>
      rw [hf] at h
      cases h
    | ok nC pok t0 t1 pca cov =>
      rw [hf] at h
      dsimp only at h
      by_cases h0 : nC = 0
      · rw [if_pos h0] at h
        cases h
      · rw [if_neg h0] at h
        rw [Option.some.injEq] at h
        subst h
        refine ⟨rfl, rfl, ?_⟩
        simp only [mkV0, setAbsCharge, setPID]
        split
        · rfl
        · rfl
  · intro p n d0 d1 vin vout h
    simp only [ST_recreateV0] at h
    cases hf : env.fitV0 p n with
    | throws =>
      rw [hf] at h
      rw [Prod.mk.injEq] at h
      cases h.1
    | ok nC pok t0 t1 pca cov =>
      rw [hf] at h
      dsimp only at h
      by_cases h0 : nC = 0 ∨ pok = false
      · rw [if_pos h0] at h
        rw [Prod.mk.injEq] at h
        cases h.1
      · rw [if_neg h0] at h
        rw [Prod.mk.injEq] at h
        obtain ⟨_, hv⟩ := h
        subst hv
        refine ⟨rfl, rfl, fun hq => ?_⟩
        simp only [mkV0] at hq ⊢
        rw [hq]
        rfl

/-- The V0 produced by `recreateV0 envOK trk0 trk0 0 1`. -/
def vRec0 : V0 :=
  { mkV0 ⟨0, 0, 0⟩ (vadd trk0.mom trk0.mom) [] trk0 trk0 0 1
      PID.hyperTriton with
    base := setPID (setAbsCharge (mkV0 ⟨0, 0, 0⟩ (vadd trk0.mom trk0.mom) []
      trk0 trk0 0 1 PID.hyperTriton).base 1) PID.hyperTriton }

theorem recreateV0_rebuilt_candidate_w :
    vRec0.base.mom = vadd vRec0.prong0.mom vRec0.prong1.mom ∧
    vRec0.base.pid = PID.hyperTriton ∧
    vRec0.base.charge.natAbs = 1 :=
  (recreateV0_rebuilt_candidate envOK).1 trk0 trk0 0 1 vRec0 rfl

/-- C10: on every failure path of `StrangenessTracker::recreateV0` (solver
throws, zero candidates, or the propagation of the fitted tracks to the
vertex fails) the output parameter `newV0` keeps its prior value; the
recreated candidate is written only after all checks have passed. -/
theorem ST_recreateV0_unchanged_on_failure (env : Env) (p n : Track)
    (d0 d1 : ℕ) (vin : V0)
    (h : (ST_recreateV0 env p n d0 d1 vin).1 = false) :
    (ST_recreateV0 env p n d0 d1 vin).2 = vin := by
  simp only [ST_recreateV0] at h ⊢
  cases hf : env.fitV0 p n with
  | throws => rfl
  | ok nC pok t0 t1 pca cov =>
    rw [hf] at h
    dsimp only at h ⊢
    by_cases h0 : nC = 0 ∨ pok = false
    · rw [if_pos h0]
    · rw [if_neg h0] at h ⊢
      simp at h

theorem ST_recreateV0_unchanged_on_failure_w :
    (ST_recreateV0 envW trk0 trk0 0 1 v0X).2 = v0X :=
  ST_recreateV0_unchanged_on_failure envW trk0 trk0 0 1 v0X rfl

/-- The truth label of a track (`o2::MCCompLabel`): its identifying fields
and the fake flag. -/
structure MCCompLabel where
  trackID : ℤ
  eventID : ℕ
  sourceID : ℕ
  fake : Bool
deriving DecidableEq

/-- Modelled from the spec: the external `MCCompLabel::setFakeFlag`
(SimulationDataFormat, not part of this repository) sets only the fake flag,
leaving the other label fields untouched. -/
def setFakeFlag (l : MCCompLabel) (v : Bool) : MCCompLabel :=
  { l with fake := v }

/-- `ClusAttachments` (StrangenessTracker.h lines 55-58): one unsigned
ownership code per detector layer.  Per the source comment at the
`mClusAttachments` member, code 0 stands for the mother and a positive code
for daughter N; the `-1 unattached` sentinel mentioned there is not
representable in the unsigned array. -/
structure ClusAttachments where
  arr : Fin 7 → ℕ

/-- `StrangenessTracker::getStrangeTrackLabel` (StrangenessTracker.h lines
254-266): recompute the fake flag of the upstream track's stored label — the
`for`-loop with `break` over the seven layers is the short-circuiting
`List.any`. -/
def getStrangeTrackLabel (hasHitOnLayer isFakeOnLayer : ℕ → Bool)
    (structClus : ClusAttachments) (itsTrkLab : MCCompLabel) : MCCompLabel :=
  setFakeFlag itsTrkLab
    ((List.finRange 7).any fun iLay =>
      hasHitOnLayer iLay.val && isFakeOnLayer iLay.val &&
        decide (structClus.arr iLay = 0))

/-- C9: the recomputed label is marked fake iff some layer 0-6 is reported
hit and fake by the track while its attachment code is 0 (not attributed to
any daughter), and the recomputation changes no field of the stored label
other than the fake flag. -/
theorem getStrangeTrackLabel_fake_iff (h f : ℕ → Bool)
    (sc : ClusAttachments) (lab : MCCompLabel) :
    ((getStrangeTrackLabel h f sc lab).fake = true ↔
      ∃ i : Fin 7, h i.val = true ∧ f i.val = true ∧ sc.arr i = 0) ∧
    (getStrangeTrackLabel h f sc lab).trackID = lab.trackID ∧
    (getStrangeTrackLabel h f sc lab).eventID = lab.eventID ∧
    (getStrangeTrackLabel h f sc lab).sourceID = lab.sourceID := by
  refine ⟨?_, rfl, rfl, rfl⟩
  simp only [getStrangeTrackLabel, setFakeFlag]
  simp [List.any_eq_true, List.mem_finRange, Bool.and_eq_true,
    decide_eq_true_eq, and_assoc]

/-- A concrete stored label for the C9 witness. -/
def lab9 : MCCompLabel :=
  { trackID := 5, eventID := 2, sourceID := 3, fake := false }

/-- A concrete attachment record for the C9 witness: every layer owned by
the mother. -/
def sc9 : ClusAttachments := { arr := fun _ => 0 }

theorem getStrangeTrackLabel_fake_iff_w :
    (getStrangeTrackLabel (fun _ => true) (fun _ => true) sc9 lab9).fake =
      true :=
  (getStrangeTrackLabel_fake_iff (fun _ => true) (fun _ => true)
    sc9 lab9).1.mpr ⟨0, rfl, rfl, rfl⟩

end StrangenessTracking
